import Mathlib

/-!
Verification of the TDnet scraping application (`tdnet` package: `models.py`,
`parsing.py`, `services.py`) against its natural-language specification.

The Python source is shallowly embedded: Pydantic models become plain
structures with explicit `Option`-returning constructors that perform the
declared field and model validation; BeautifulSoup documents become a small
table/row/cell datatype carrying exactly the attributes the parser reads
(class lists, hyperlinks with `href`/text, plain text); the network is an
oracle function from URLs to fetch outcomes; machine-level hashing (SHA-256)
is implemented over `Nat` byte lists with explicit `% 2^32` arithmetic.
-/

set_option maxRecDepth 100000
set_option maxHeartbeats 1600000

namespace Tdnet

/-! ## Decimal rendering and dates

Python renders `date` objects as zero-padded ISO `YYYY-MM-DD`
(`date.__str__`) and as `YYYYMMDD` via `strftime("%Y%m%d")`.  `natDigits` is
ordinary decimal rendering; `padNum` left-pads with zeros to a minimum
width, matching `%0Nd` format semantics. -/

def natDigitsAux : Nat → Nat → List Char
  | 0, _ => []
  | fuel + 1, n =>
    if n < 10 then [Nat.digitChar n]
    else natDigitsAux fuel (n / 10) ++ [Nat.digitChar (n % 10)]

def natDigits (n : Nat) : List Char := natDigitsAux (n + 1) n

def natStr (n : Nat) : String := ⟨natDigits n⟩

def padNum (w n : Nat) : String := ⟨List.replicate (w - (natDigits n).length) '0' ++ natDigits n⟩

/-- A calendar date as Python's `datetime.date` carries it (year, month, day). -/
structure PyDate where
  year : Nat
  month : Nat
  day : Nat
deriving DecidableEq, Repr

/-- `str(date)`: ISO `YYYY-MM-DD`, zero padded. -/
def PyDate.iso (d : PyDate) : String :=
  padNum 4 d.year ++ "-" ++ padNum 2 d.month ++ "-" ++ padNum 2 d.day

/-- `date.strftime("%Y%m%d")`: the 8-digit date string. -/
def PyDate.yyyymmdd (d : PyDate) : String :=
  padNum 4 d.year ++ padNum 2 d.month ++ padNum 2 d.day

theorem natDigitsAux_length_le :
    ∀ (fuel w n : Nat), n < 10 ^ w → n < fuel → 0 < w → (natDigitsAux fuel n).length ≤ w := by
  intro fuel
  induction fuel with
  | zero => intro w n _ h; omega
  | succ fuel ih =>
    intro w n hn hfuel hw
    rw [natDigitsAux]
    split
    · simpa using hw
    · rename_i h10
      push_neg at h10
      have hw2 : 2 ≤ w := by
        by_contra hc
        interval_cases w
        omega
      have hdiv : n / 10 < 10 ^ (w - 1) := by
        have h1 : 10 ^ (w - 1) * 10 = 10 ^ w := by
          have hww : w - 1 + 1 = w := by omega
          conv_rhs => rw [← hww]
          rw [pow_succ]
        omega
      have hfuel2 : n / 10 < fuel := by omega
      have := ih (w - 1) (n / 10) hdiv hfuel2 (by omega)
      simp only [List.length_append, List.length_cons, List.length_nil]
      omega

theorem natDigits_length_le (w n : Nat) (hn : n < 10 ^ w) (hw : 0 < w) :
    (natDigits n).length ≤ w :=
  natDigitsAux_length_le (n + 1) w n hn (by omega) hw

theorem padNum_length (w n : Nat) (hw : 0 < w) (hn : n < 10 ^ w) : (padNum w n).length = w := by
  have hle := natDigits_length_le w n hn hw
  simp only [padNum, String.length, List.length_append, List.length_replicate]
  omega

/-! ## UTF-8 encoding (`str.encode('utf-8')`) -/

def utf8Bytes (c : Char) : List Nat :=
  let n := c.toNat
  if n < 128 then [n]
  else if n < 2048 then [192 + n / 64, 128 + n % 64]
  else if n < 65536 then [224 + n / 4096, 128 + (n / 64) % 64, 128 + n % 64]
  else [240 + n / 262144, 128 + (n / 4096) % 64, 128 + (n / 64) % 64, 128 + n % 64]

def strUtf8 (s : String) : List Nat := (s.data.map utf8Bytes).flatten

/-! ## SHA-256 (`hashlib.sha256`)

Implemented over byte lists (`List Nat`, each element `< 256`), with 32-bit
words as `Nat` reduced by `% 2 ^ 32` (`w32`), per FIPS 180-4. -/

def w32 (n : Nat) : Nat := n % 4294967296

def rotr32 (x k : Nat) : Nat := w32 (Nat.lor (x >>> k) (x <<< (32 - k)))

def shaCh (x y z : Nat) : Nat := Nat.xor (Nat.land x y) (Nat.land (4294967295 - w32 x) z)

def shaMaj (x y z : Nat) : Nat :=
  Nat.xor (Nat.xor (Nat.land x y) (Nat.land x z)) (Nat.land y z)

def bigSigma0 (x : Nat) : Nat := Nat.xor (Nat.xor (rotr32 x 2) (rotr32 x 13)) (rotr32 x 22)
def bigSigma1 (x : Nat) : Nat := Nat.xor (Nat.xor (rotr32 x 6) (rotr32 x 11)) (rotr32 x 25)
def smallSigma0 (x : Nat) : Nat := Nat.xor (Nat.xor (rotr32 x 7) (rotr32 x 18)) (x >>> 3)
def smallSigma1 (x : Nat) : Nat := Nat.xor (Nat.xor (rotr32 x 17) (rotr32 x 19)) (x >>> 10)

/-- Round constants: fractional parts of the cube roots of the first 64 primes. -/
def shaK : List Nat :=
  [1116352408, 1899447441, 3049323471, 3921009573, 961987163, 1508970993, 2453635748,
   2870763221, 3624381080, 310598401, 607225278, 1426881987, 1925078388, 2162078206,
   2614888103, 3248222580, 3835390401, 4022224774, 264347078, 604807628, 770255983,
   1249150122, 1555081692, 1996064986, 2554220882, 2821834349, 2952996808, 3210313671,
   3336571891, 3584528711, 113926993, 338241895, 666307205, 773529912, 1294757372,
   1396182291, 1695183700, 1986661051, 2177026350, 2456956037, 2730485921, 2820302411,
   3259730800, 3345764771, 3516065817, 3600352804, 4094571909, 275423344, 430227734,
   506948616, 659060556, 883997877, 958139571, 1322822218, 1537002063, 1747873779,
   1955562222, 2024104815, 2227730452, 2361852424, 2428436474, 2756734187, 3204031479,
   3329325298]

/-- Working state: the eight 32-bit words of a SHA-256 hash value. -/
structure Hash8 where
  a : Nat
  b : Nat
  c : Nat
  d : Nat
  e : Nat
  f : Nat
  g : Nat
  h : Nat
deriving DecidableEq, Repr

/-- Initial hash value: fractional parts of the square roots of the first 8 primes. -/
def shaH0 : Hash8 :=
  ⟨1779033703, 3144134277, 1013904242, 2773480762, 1359893119, 2600822924, 528734635,
   1541459225⟩

/-- Split a list into consecutive groups of `k` elements (the last group may be
shorter; callers always pass lengths that are multiples of `k`). -/
def chunkList (k : Nat) (l : List Nat) : List (List Nat) :=
  (List.range ((l.length + k - 1) / k)).map fun i => (l.drop (i * k)).take k

/-- Big-endian byte composition of a word. -/
def bytesToWord (bs : List Nat) : Nat := bs.foldl (fun acc b => acc * 256 + b) 0

def wordToBytes (w : Nat) : List Nat :=
  [w / 16777216 % 256, w / 65536 % 256, w / 256 % 256, w % 256]

/-- Merkle–Damgård padding: `0x80`, zeros to 56 mod 64, 8-byte big-endian bit length. -/
def shaPad (msg : List Nat) : List Nat :=
  let bitLen := msg.length * 8
  let zeros := (119 - msg.length % 64) % 64
  msg ++ [128] ++ List.replicate zeros 0 ++
    ((List.range 8).map fun i => bitLen >>> ((7 - i) * 8) % 256)

/-- Extend the message schedule by one word. -/
def stepW (ws : List Nat) : List Nat :=
  let n := ws.length
  ws ++ [w32 (ws.getD (n - 16) 0 + smallSigma0 (ws.getD (n - 15) 0) +
              ws.getD (n - 7) 0 + smallSigma1 (ws.getD (n - 2) 0))]

/-- The 64-word message schedule from a chunk's 16 words. -/
def fullW (ws : List Nat) : List Nat := stepW^[48] ws

/-- One compression round; `kw` is the round constant plus schedule word. -/
def compressRound (st : Hash8) (kw : Nat) : Hash8 :=
  let t1 := w32 (st.h + bigSigma1 st.e + shaCh st.e st.f st.g + kw)
  let t2 := w32 (bigSigma0 st.a + shaMaj st.a st.b st.c)
  ⟨w32 (t1 + t2), st.a, st.b, st.c, w32 (st.d + t1), st.e, st.f, st.g⟩

/-- Compress one 64-byte chunk into the running hash value. -/
def processChunk (H : Hash8) (chunk : List Nat) : Hash8 :=
  let ws := fullW ((chunkList 4 chunk).map bytesToWord)
  let kws := (shaK.zip ws).map fun p => w32 (p.1 + p.2)
  let st := kws.foldl compressRound H
  ⟨w32 (H.a + st.a), w32 (H.b + st.b), w32 (H.c + st.c), w32 (H.d + st.d),
   w32 (H.e + st.e), w32 (H.f + st.f), w32 (H.g + st.g), w32 (H.h + st.h)⟩

/-- SHA-256 digest of a byte list, as 32 bytes. -/
def sha256Bytes (msg : List Nat) : List Nat :=
  let fin := (chunkList 64 (shaPad msg)).foldl processChunk shaH0
  wordToBytes fin.a ++ wordToBytes fin.b ++ wordToBytes fin.c ++ wordToBytes fin.d ++
    wordToBytes fin.e ++ wordToBytes fin.f ++ wordToBytes fin.g ++ wordToBytes fin.h

def hexDigitChar (n : Nat) : Char := if n < 10 then Char.ofNat (48 + n) else Char.ofNat (87 + n)

/-- `hexdigest()`: lowercase hex rendering of the digest. -/
def sha256hex (msg : List Nat) : String :=
  ⟨((sha256Bytes msg).map fun b => [hexDigitChar (b / 16), hexDigitChar (b % 16)]).flatten⟩

/-- FIPS 180-4 test vector: digest of `"abc"`. -/
example :
    sha256hex (strUtf8 "abc") =
      "ba7816bf8f01cfea414140de5dae2223b00361a396177a9cb410ff61f20015ad" := by
  rfl

/-- Test vector: digest of the empty message. -/
example :
    sha256hex (strUtf8 "") =
      "e3b0c44298fc1c149afbf4c8996fb92427ae41e4649b934ca495991b7852b855" := by
  rfl

/-! ## String primitives

Character-list implementations of the Python string operations the source
uses (`strip`, `lower`, `startswith`, `endswith`, truthiness of a string,
substring membership).  Python's `strip` also removes some further Unicode
whitespace; only the ASCII whitespace characters are modelled. -/

def isPyWhitespace (c : Char) : Bool :=
  c == ' ' || c == '\t' || c == '\n' || c == '\r' || c == '\x0b' || c == '\x0c'

/-- `str.strip()`. -/
def strStrip (s : String) : String :=
  ⟨((s.data.dropWhile isPyWhitespace).reverse.dropWhile isPyWhitespace).reverse⟩

/-- `str.lower()` (ASCII). -/
def strLower (s : String) : String := ⟨s.data.map Char.toLower⟩

/-- `str.startswith(p)`. -/
def strStartsWith (s p : String) : Bool := p.data.isPrefixOf s.data

/-- `str.endswith(p)`. -/
def strEndsWith (s p : String) : Bool := p.data.isSuffixOf s.data

/-- Python falsiness of a string (`not s`). -/
def strIsEmpty (s : String) : Bool := s.data.isEmpty

/-- Substring containment over character lists (`needle in hay`). -/
def charsContain (hay needle : List Char) : Bool :=
  if needle.isPrefixOf hay then true
  else
    match hay with
    | [] => false
    | _ :: t => charsContain t needle

/-! ## Field validation (`models.py`)

The Pydantic field constraints declared on `TdnetDisclosure`:
`str_strip_whitespace` (modelled with `String.trim`), the `DisclosureTime`
pattern `^\d{1,2}:\d{2}$`, the `CompanyCode` pattern `^[0-9A-Z]+$`, length
bounds, and a shallow stand-in for `HttpUrl` syntactic validity (scheme
`http`/`https` plus a nonempty remainder; Pydantic's full URL grammar and
normalisation are not modelled — URL-typed fields are carried as the raw
strings the parser produced). -/

def isAsciiDigit (c : Char) : Bool := '0' ≤ c && c ≤ '9'

/-- `^\d{1,2}:\d{2}$` (ASCII digits). -/
def isTimeString (s : String) : Bool :=
  match s.data with
  | [h1, c, m1, m2] => isAsciiDigit h1 && c == ':' && isAsciiDigit m1 && isAsciiDigit m2
  | [h1, h2, c, m1, m2] =>
    isAsciiDigit h1 && isAsciiDigit h2 && c == ':' && isAsciiDigit m1 && isAsciiDigit m2
  | _ => false

/-- `^[0-9A-Z]+$`. -/
def isCompanyCodeString (s : String) : Bool :=
  !strIsEmpty s && s.data.all fun c => isAsciiDigit c || ('A' ≤ c && c ≤ 'Z')

/-- Shallow model of Pydantic's `HttpUrl` syntactic check. -/
def isHttpUrlString (s : String) : Bool :=
  (strStartsWith s "http://" && s.length > 7) || (strStartsWith s "https://" && s.length > 8)

/-! ## `TdnetDisclosure` (`models.py` lines 18–83) -/

structure TdnetDisclosure where
  time : String
  code : String
  name : String
  title : String
  pdf_url : String
  xbrl_available : Bool
  xbrl_url : Option String
  place : String
  history : String
  disclosure_date : PyDate
deriving DecidableEq, Repr

/-- `f"{self.code}_{self.disclosure_date}_{str(self.pdf_url)}_{self.time}"`. -/
def TdnetDisclosure.uniqueString (d : TdnetDisclosure) : String :=
  d.code ++ "_" ++ d.disclosure_date.iso ++ "_" ++ d.pdf_url ++ "_" ++ d.time

/-- Python string slicing `s[:n]`: the first `n` characters (code points). -/
def strTake (s : String) (n : Nat) : String := ⟨s.data.take n⟩

/-- The computed `id` field: first 16 hex characters of the SHA-256 of the
UTF-8 encoded unique string (`hexdigest()[:16]`). -/
def TdnetDisclosure.id (d : TdnetDisclosure) : String :=
  strTake (sha256hex (strUtf8 d.uniqueString)) 16

/-- Validating construction of a `TdnetDisclosure`: Pydantic whitespace
stripping, the declared field constraints, the `code`/`name`/`title` field
validators, and the `validate_xbrl_consistency` model validator.  `none`
models a raised `ValidationError`. -/
def mkDisclosure? (time code name title pdf_url : String) (xbrl_available : Bool)
    (xbrl_url : Option String) (place history : String) (disclosure_date : PyDate) :
    Option TdnetDisclosure :=
  let time := strStrip time
  let code := strStrip code
  let name := strStrip name
  let title := strStrip title
  let place := strStrip place
  let history := strStrip history
  if !isTimeString time then none
  else if !isCompanyCodeString code then none
  else if strIsEmpty name then none
  else if strIsEmpty title then none
  else if !isHttpUrlString pdf_url then none
  else if strIsEmpty place || place.length > 10 then none
  else if !(match xbrl_url with | some u => isHttpUrlString u | none => true) then none
  else if xbrl_available && xbrl_url.isNone then none
  else if !xbrl_available && xbrl_url.isSome then none
  else some ⟨time, code, name, title, pdf_url, xbrl_available, xbrl_url, place, history,
             disclosure_date⟩

/-! ## `TdnetScrapingResult` (`models.py` lines 86–183) -/

structure TdnetScrapingResult where
  scraping_date : PyDate
  total_disclosures : Int
  disclosures : List TdnetDisclosure
  pdf_urls : List String
deriving DecidableEq, Repr

/-- Validating construction of a `TdnetScrapingResult`:
`validate_total_disclosures` (`ge=0`) and the `validate_consistency` model
validator (count match, URL uniqueness via `set`, record URLs present in
`pdf_urls`).  `none` models a raised `ValidationError`. -/
def mkResult? (scraping_date : PyDate) (total_disclosures : Int)
    (disclosures : List TdnetDisclosure) (pdf_urls : List String) :
    Option TdnetScrapingResult :=
  if total_disclosures < 0 then none
  else if total_disclosures ≠ disclosures.length then none
  else if pdf_urls.length ≠ pdf_urls.dedup.length then none
  else if disclosures.any (fun d => !pdf_urls.contains d.pdf_url) then none
  else some ⟨scraping_date, total_disclosures, disclosures, pdf_urls⟩

/-- `unique_disclosure_count`: `len(set(d.id for d in self.disclosures))`. -/
def TdnetScrapingResult.unique_disclosure_count (r : TdnetScrapingResult) : Nat :=
  (r.disclosures.map TdnetDisclosure.id).dedup.length

/-- `get_unique_disclosure_ids`: the (not actually deduplicated) id list. -/
def TdnetScrapingResult.get_unique_disclosure_ids (r : TdnetScrapingResult) : List String :=
  r.disclosures.map TdnetDisclosure.id

/-- `has_duplicate_ids`: `len(ids) != len(set(ids))`. -/
def TdnetScrapingResult.has_duplicate_ids (r : TdnetScrapingResult) : Bool :=
  r.get_unique_disclosure_ids.length != r.get_unique_disclosure_ids.dedup.length

/-! ## HTML page model

A BeautifulSoup document, restricted to what `parsing.py` reads: hyperlinks
(`find_all('a')`, with `get('href', '')` and stripped text — a link whose
`href` attribute is missing is carried as `href = ""`, which every use site
treats identically), table cells (`find_all('td')`, with the `class`
attribute list and stripped text), rows (`find_all('tr')`), the designated
`main-list-table` (`none` when `soup.find` misses), the `pager-R` `onclick`
attribute, and presence of the no-data marker string (read by
`services.py`). -/

structure ATag where
  href : String
  text : String
deriving DecidableEq, Repr

structure Cell where
  classes : List String
  links : List ATag
  text : String
deriving DecidableEq, Repr

structure Row where
  cells : List Cell
deriving DecidableEq, Repr

structure Page where
  table : Option (List Row)
  pagerOnclick : Option String
  noDataMarker : Bool
deriving DecidableEq, Repr

/-- `constants.BASE_URL`. -/
def BASE_URL : String := "https://www.release.tdnet.info"

/-- `urllib.parse.urljoin` against the fixed base (a bare-authority `https`
URL), modelled for the resolution cases that arise here: an absolute
`http(s)` URL passes through, a scheme-relative reference takes the base's
scheme, otherwise the reference is attached to the authority.  The full
RFC 3986 algorithm (dot segments, query/fragment handling, other schemes)
is not modelled. -/
def urljoin (base href : String) : String :=
  if strStartsWith href "http://" || strStartsWith href "https://" then href
  else if strStartsWith href "//" then "https:" ++ href
  else if strStartsWith href "/" then base ++ href
  else if strIsEmpty href then base
  else base ++ "/" ++ href

/-! ## Row scanning (`extract_structured_data_from_page`, lines 25–75)

`row_data` is the dynamic dict built per row; recognised keys become
`Option` fields.  `extra` records that some unrecognised key was set (which
`TdnetDisclosure(**row_data)` rejects via `extra='forbid'`).  A generic
`xbrl_available` cell stores its raw text (`Sum.inr`), coerced to a bool
only at construction, as Pydantic does. -/

structure RowData where
  time : Option String := none
  code : Option String := none
  name : Option String := none
  title : Option String := none
  pdf_url : Option String := none
  xbrl_url : Option String := none
  xbrl_available : Option (Sum Bool String) := none
  place : Option String := none
  history : Option String := none
  extra : Bool := false
deriving DecidableEq, Repr

/-- Pydantic's lax bool coercion for string input (used when a generic
`kj…`-tagged cell writes the `xbrl_available` key). Modelled from Pydantic's
documented accepted string values. -/
def pyBoolOfString? (s : String) : Option Bool :=
  let t := strLower (strStrip s)
  if t ∈ ["true", "t", "yes", "y", "on", "1"] then some true
  else if t ∈ ["false", "f", "no", "n", "off", "0"] then some false
  else none

/-- One hyperlink of the `kjTitle` cell loop (lines 42–49): a `.pdf` link
supplies title and `pdf_url` only while `pdf_url` is unset; a `.zip` link
supplies `xbrl_url` and sets availability. -/
def titleLinkStep (rd : RowData) (link : ATag) : RowData :=
  if strEndsWith link.href ".pdf" && rd.pdf_url.isNone then
    { rd with title := some link.text, pdf_url := some (urljoin BASE_URL link.href) }
  else if strEndsWith link.href ".zip" then
    { rd with xbrl_url := some (urljoin BASE_URL link.href),
              xbrl_available := some (Sum.inl true) }
  else rd

/-- The `kjTitle` branch (lines 38–52): reset the availability flag, scan all
links in order, then fall back to the cell text when no title was set. -/
def processTitleCell (rd : RowData) (cell : Cell) : RowData :=
  let rd := { rd with xbrl_available := some (Sum.inl false) }
  let rd := cell.links.foldl titleLinkStep rd
  if rd.title.isNone then { rd with title := some cell.text } else rd

/-- The `kjXbrl` branch (lines 53–59): only the cell's first link is
consulted. -/
def processXbrlCell (rd : RowData) (cell : Cell) : RowData :=
  match cell.links.head? with
  | some link =>
    if strEndsWith link.href ".zip" then
      { rd with xbrl_url := some (urljoin BASE_URL link.href),
                xbrl_available := some (Sum.inl true) }
    else { rd with xbrl_available := some (Sum.inl false) }
  | none => { rd with xbrl_available := some (Sum.inl false) }

/-- The generic branch (lines 64–65): `row_data[class_name[2:].lower()] =
cell text`.  Keys that name a model field land there; `disclosure_date` is
overwritten by the caller before construction; any other key trips
`extra='forbid'`. -/
def applyGeneric (rd : RowData) (field : String) (text : String) : RowData :=
  if field == "time" then { rd with time := some text }
  else if field == "code" then { rd with code := some text }
  else if field == "name" then { rd with name := some text }
  else if field == "title" then { rd with title := some text }
  else if field == "place" then { rd with place := some text }
  else if field == "history" then { rd with history := some text }
  else if field == "pdf_url" then { rd with pdf_url := some text }
  else if field == "xbrl_url" then { rd with xbrl_url := some text }
  else if field == "xbrl_available" then { rd with xbrl_available := some (Sum.inr text) }
  else if field == "disclosure_date" then rd
  else { rd with extra := true }

/-- Per-cell dispatch (lines 32–67): the first class with the `kj` prefix is
processed, then the class loop breaks. -/
def processCell (rd : RowData) (cell : Cell) : RowData :=
  match cell.classes.find? (fun s => strStartsWith s "kj") with
  | none => rd
  | some cn =>
    if cn == "kjTitle" then processTitleCell rd cell
    else if cn == "kjXbrl" then processXbrlCell rd cell
    else if cn == "kjHistroy" then { rd with history := some cell.text }
    else if cn == "kjCompany" then { rd with name := some cell.text }
    else applyGeneric rd (strLower ⟨cn.data.drop 2⟩) cell.text

/-- The tag-processing pass over one row's cells. -/
def rowTagData (row : Row) : RowData :=
  row.cells.foldl processCell {}

/-- `TdnetDisclosure(**row_data)` with `row_data['disclosure_date']` set by
the caller: required keys that are absent raise (here: `none`; an absent
`time`/`code` key is mapped to the empty string, which the pattern
validators reject identically), defaults fill `xbrl_available`/`xbrl_url`/
`history`, and a pending string value for `xbrl_available` goes through bool
coercion. -/
def mkDisclosureFromRowData (rd : RowData) (d : PyDate) : Option TdnetDisclosure :=
  if rd.extra then none
  else
    match rd.name, rd.title, rd.pdf_url, rd.place with
    | some n, some ti, some p, some pl =>
      match (match rd.xbrl_available with
             | none => some false
             | some (Sum.inl b) => some b
             | some (Sum.inr s) => pyBoolOfString? s) with
      | none => none
      | some xa =>
        mkDisclosure? (rd.time.getD "") (rd.code.getD "") n ti p xa rd.xbrl_url pl
          (rd.history.getD "") d
    | _, _, _, _ => none

/-- One row of `extract_structured_data_from_page`: rows with fewer than 6
cells are skipped (line 27), the `time`/`code`/`pdf_url` keys must be
present (line 69), and a construction failure is caught (line 74). -/
def processRow (row : Row) (d : PyDate) : Option TdnetDisclosure :=
  if row.cells.length < 6 then none
  else
    let rd := rowTagData row
    if rd.time.isSome && rd.code.isSome && rd.pdf_url.isSome then
      mkDisclosureFromRowData rd d
    else none

/-- `acc.append([b])` when the row produced a value, `acc` unchanged when
the row was skipped. -/
def appendIfSome {β : Type} (acc : List β) (o : Option β) : List β :=
  match o with
  | some b => acc ++ [b]
  | none => acc

/-- `extract_structured_data_from_page` (lines 15–78). -/
def extract_structured_data_from_page (page : Page) (d : PyDate) : List TdnetDisclosure :=
  match page.table with
  | none => []
  | some rows =>
    rows.foldl (fun acc row => appendIfSome acc (processRow row d)) []

/-- One row of `extract_pdf_urls_from_page`: with at least 4 cells, take the
cell at index 3 when its class list contains `kjTitle`, and its first link
when that link's `href` ends in `.pdf`. -/
def rowPdfUrl? (row : Row) : Option String :=
  match row.cells[3]? with
  | none => none
  | some cell =>
    if "kjTitle" ∈ cell.classes then
      match cell.links.head? with
      | some link =>
        if strEndsWith link.href ".pdf" then some (urljoin BASE_URL link.href) else none
      | none => none
    else none

/-- `extract_pdf_urls_from_page` (lines 81–102). -/
def extract_pdf_urls_from_page (page : Page) : List String :=
  match page.table with
  | none => []
  | some rows =>
    rows.foldl (fun acc row => appendIfSome acc (rowPdfUrl? row)) []

/-- `has_next_page` (lines 105–111). -/
def has_next_page (page : Page) : Bool :=
  match page.pagerOnclick with
  | none => false
  | some onclick =>
    charsContain onclick.data "I_list_".data && charsContain onclick.data ".html".data

/-! ## Crawler (`services.py`)

The network is an oracle from page URLs to outcomes.  `ok` is a response
whose parsed body is `Page`; `notFound` is status 404 (line 40); `failure`
covers both a `raise_for_status` error on any other unsuccessful status and
a transport-level `RequestException` (lines 43–47) — the code treats the
three non-`ok` outcomes alike (`break`), differing only in logging.  The
unbounded `while True` is given explicit fuel; every claim about the loop
holds for any sufficient fuel. -/

inductive FetchOutcome where
  | ok (page : Page)
  | notFound
  | failure
deriving DecidableEq, Repr

/-- `_build_page_url` (lines 16–21). -/
def build_page_url (target_date : PyDate) (page : Nat) : String :=
  let date_str := target_date.yyyymmdd
  if page = 1 then BASE_URL ++ "/inbs/I_list_001_" ++ date_str ++ ".html"
  else BASE_URL ++ "/inbs/I_list_" ++ padNum 3 page ++ "_" ++ date_str ++ ".html"

/-- Insertion of a string into an ascending list (`s` goes before the first
element not below it). -/
def insertStr (s : String) : List String → List String
  | [] => [s]
  | t :: ts => if !decide (t < s) then s :: t :: ts else t :: insertStr s ts

/-- `sorted(...)`: ascending lexicographic sort. -/
def sortStrings (l : List String) : List String := l.foldr insertStr []

/-- `sorted(list(set(all_found_urls)))` (line 75). -/
def sortedUnique (l : List String) : List String := sortStrings l.dedup

/-- The `while True` loop of `scrape_tdnet_by_date` (lines 33–73), returning
the accumulated `(all_found_urls, all_structured_data)`. -/
def scrapeLoop (fetch : String → FetchOutcome) (target_date : PyDate) :
    Nat → Nat → List String → List TdnetDisclosure → List String × List TdnetDisclosure
  | 0, _, accUrls, accData => (accUrls, accData)
  | fuel + 1, current_page, accUrls, accData =>
    match fetch (build_page_url target_date current_page) with
    | .notFound => (accUrls, accData)
    | .failure => (accUrls, accData)
    | .ok page =>
      if page.noDataMarker || page.table.isNone || (page.table.getD []).isEmpty then
        (accUrls, accData)
      else
        let accUrls := accUrls ++ extract_pdf_urls_from_page page
        let accData := accData ++ extract_structured_data_from_page page target_date
        if !has_next_page page then (accUrls, accData)
        else scrapeLoop fetch target_date fuel (current_page + 1) accUrls accData

/-- `scrape_tdnet_by_date` (lines 24–82): run the loop from page 1 with empty
accumulators, then build the result; `none` models the final
`TdnetScrapingResult` constructor raising. -/
def scrape_tdnet_by_date (fetch : String → FetchOutcome) (fuel : Nat) (target_date : PyDate) :
    Option TdnetScrapingResult :=
  let acc := scrapeLoop fetch target_date fuel 1 [] []
  mkResult? target_date acc.2.length acc.2 (sortedUnique acc.1)

/-! ## Helper lemmas and concrete fixtures -/

theorem dedup_length_eq_iff {α : Type} [DecidableEq α] (l : List α) :
    l.dedup.length = l.length ↔ l.Nodup := by
  constructor
  · intro h
    have he := List.Sublist.eq_of_length (List.dedup_sublist l) h
    rw [← he]
    exact List.nodup_dedup l
  · intro h
    rw [List.dedup_eq_self.mpr h]

theorem appendIfSome_none {β : Type} (acc : List β) : appendIfSome acc none = acc := rfl

theorem appendIfSome_some {β : Type} (acc : List β) (b : β) :
    appendIfSome acc (some b) = acc ++ [b] := rfl

theorem foldl_append_eq_filterMap {α β : Type} (f : α → Option β) (l : List α) (acc : List β) :
    l.foldl (fun acc a => appendIfSome acc (f a)) acc = acc ++ l.filterMap f := by
  induction l generalizing acc with
  | nil => simp
  | cons a l ih =>
    cases h : f a with
    | none =>
      simp only [List.foldl_cons, List.filterMap_cons, h, appendIfSome_none]
      exact ih acc
    | some b =>
      simp only [List.foldl_cons, List.filterMap_cons, h, appendIfSome_some]
      rw [ih]
      simp

/-- The target date of the repository's own hash-consistency test. -/
def dW : PyDate := ⟨2025, 10, 21⟩

/-- The fixture record of `tests/test_hash_consistency.py`. -/
def rW : TdnetDisclosure :=
  ⟨"15:30", "12345", "Test Company", "Test Disclosure", "https://example.com/test123.pdf",
   true, some "https://example.com/test123.zip", "東", "", dW⟩

/-- Same identity fields as `rW`, different remaining fields. -/
def rW2 : TdnetDisclosure :=
  { rW with title := "Another Title", xbrl_available := false, xbrl_url := none }

/-! ## Claims about the models -/

/-- C1: `mkResult?` fails exactly on the `validate_consistency` violations —
count mismatch, duplicate URL strings, or a record URL missing from
`pdf_urls` — and succeeds when the three conditions and the remaining field
constraint (`total_disclosures ≥ 0`) hold. -/
theorem result_construction_invariants :
    (∀ (d : PyDate) (total : Int) (discs : List TdnetDisclosure) (urls : List String),
        (total ≠ discs.length ∨ ¬ urls.Nodup ∨ ∃ r ∈ discs, r.pdf_url ∉ urls) →
        mkResult? d total discs urls = none) ∧
    (∀ (d : PyDate) (total : Int) (discs : List TdnetDisclosure) (urls : List String),
        0 ≤ total → total = discs.length → urls.Nodup →
        (∀ r ∈ discs, r.pdf_url ∈ urls) →
        (mkResult? d total discs urls).isSome) := by
  constructor
  · intro d total discs urls h
    unfold mkResult?
    split_ifs with h1 h2 h3 h4
    · rfl
    · rfl
    · rfl
    · rfl
    · exfalso
      rcases h with h | h | h
      · exact h2 h
      · exact h ((dedup_length_eq_iff urls).mp (by omega))
      · rcases h with ⟨r, hr, hnot⟩
        rw [List.any_eq_true] at h4
        push_neg at h4
        have := h4 r hr
        simp [List.contains] at this
        exact hnot this
  · intro d total discs urls h0 hlen hnodup hmem
    unfold mkResult?
    split_ifs with h1 h2 h3 h4
    · omega
    · exact absurd hlen h2
    · exact absurd ((dedup_length_eq_iff urls).mpr hnodup).symm h3
    · exfalso
      rw [List.any_eq_true] at h4
      rcases h4 with ⟨r, hr, hnot⟩
      simp [List.contains] at hnot
      exact hnot (hmem r hr)
    · rfl

/-- C1 witness: a count mismatch fails; a consistent construction succeeds. -/
theorem result_construction_invariants_witness :
    mkResult? dW 1 [] [] = none ∧ (mkResult? dW 1 [rW] [rW.pdf_url]).isSome :=
  ⟨result_construction_invariants.1 dW 1 [] [] (Or.inl (by decide)),
   result_construction_invariants.2 dW 1 [rW] [rW.pdf_url] (by decide) (by decide)
     (by simp) (by simp)⟩

/-- C2: `validate_xbrl_consistency` — construction fails when
`xbrl_available` is true with no `xbrl_url` and when it is false with one;
every constructed record satisfies `xbrl_available ↔ xbrl_url` present. -/
theorem xbrl_consistency_enforced :
    (∀ (time code nm title url place hist : String) (d : PyDate),
        mkDisclosure? time code nm title url true none place hist d = none) ∧
    (∀ (time code nm title url xu place hist : String) (d : PyDate),
        mkDisclosure? time code nm title url false (some xu) place hist d = none) ∧
    (∀ (time code nm title url place hist : String) (xa : Bool) (xu : Option String)
        (d : PyDate) (r : TdnetDisclosure),
        mkDisclosure? time code nm title url xa xu place hist d = some r →
        r.xbrl_available = r.xbrl_url.isSome) := by
  refine ⟨?_, ?_, ?_⟩
  · intro time code nm title url place hist d
    simp [mkDisclosure?]
  · intro time code nm title url xu place hist d
    simp [mkDisclosure?]
  · intro time code nm title url place hist xa xu d r h
    simp only [mkDisclosure?] at h
    split_ifs at h with h1 h2 h3 h4 h5 h6 h7 h8 h9
    cases h
    cases xa <;> cases xu <;> simp_all

/-- C2 witness: the two failing constructions and one succeeding record. -/
theorem xbrl_consistency_enforced_witness :
    mkDisclosure? "15:30" "12345" "Test Company" "Test Disclosure"
        "https://example.com/test123.pdf" true none "東" "" dW = none ∧
    mkDisclosure? "15:30" "12345" "Test Company" "Test Disclosure"
        "https://example.com/test123.pdf" false (some "https://example.com/test123.zip")
        "東" "" dW = none ∧
    rW.xbrl_available = rW.xbrl_url.isSome :=
  ⟨xbrl_consistency_enforced.1 "15:30" "12345" "Test Company" "Test Disclosure"
      "https://example.com/test123.pdf" "東" "" dW,
   xbrl_consistency_enforced.2.1 "15:30" "12345" "Test Company" "Test Disclosure"
      "https://example.com/test123.pdf" "https://example.com/test123.zip" "東" "" dW,
   xbrl_consistency_enforced.2.2 "15:30" "12345" "Test Company" "Test Disclosure"
      "https://example.com/test123.pdf" "東" "" true (some "https://example.com/test123.zip") dW rW
      (by rfl)⟩

/-- C3: a record's `id` is the first 16 hex characters of the SHA-256 of
`code_date_url_time`, so records agreeing on those four fields share it. -/
theorem disclosure_id_spec (d1 d2 : TdnetDisclosure)
    (hc : d1.code = d2.code) (hd : d1.disclosure_date = d2.disclosure_date)
    (hp : d1.pdf_url = d2.pdf_url) (ht : d1.time = d2.time) :
    d1.id = strTake (sha256hex (strUtf8 (d1.code ++ "_" ++ d1.disclosure_date.iso ++ "_" ++
      d1.pdf_url ++ "_" ++ d1.time))) 16 ∧
    d1.id = d2.id := by
  refine ⟨rfl, ?_⟩
  unfold TdnetDisclosure.id TdnetDisclosure.uniqueString
  rw [hc, hd, hp, ht]

/-- C3 witness: two records of the repository's hash-consistency test data,
equal on the four identity fields and different elsewhere, share the id the
reference implementation computes (`625eec2f56d39bbd`). -/
theorem disclosure_id_spec_witness :
    rW.code = rW2.code ∧ rW.disclosure_date = rW2.disclosure_date ∧
    rW.pdf_url = rW2.pdf_url ∧ rW.time = rW2.time ∧
    rW.id = rW2.id ∧ rW.id = "625eec2f56d39bbd" :=
  ⟨rfl, rfl, rfl, rfl, (disclosure_id_spec rW rW2 rfl rfl rfl rfl).2, by rfl⟩

/-- C9: the page address pattern — `I_list_001_YYYYMMDD.html` for page 1,
`I_list_{page:03d}_YYYYMMDD.html` for later pages, with the date as the
8-digit `YYYYMMDD` string (dates within `datetime.date`'s ranges). -/
theorem page_url_pattern (d : PyDate) (n : Nat) (hy : d.year ≤ 9999)
    (hm : d.month ≤ 12) (hd : d.day ≤ 31) (hn : 1 ≤ n) :
    d.yyyymmdd.length = 8 ∧
    (n = 1 →
      build_page_url d n = BASE_URL ++ "/inbs/I_list_001_" ++ d.yyyymmdd ++ ".html") ∧
    (2 ≤ n →
      build_page_url d n =
        BASE_URL ++ "/inbs/I_list_" ++ padNum 3 n ++ "_" ++ d.yyyymmdd ++ ".html") := by
  refine ⟨?_, ?_, ?_⟩
  · have h1 := padNum_length 4 d.year (by omega) (by omega)
    have h2 := padNum_length 2 d.month (by omega) (by omega)
    have h3 := padNum_length 2 d.day (by omega) (by omega)
    simp only [PyDate.yyyymmdd, String.length_append]
    omega
  · intro he
    subst he
    rfl
  · intro h2
    unfold build_page_url
    rw [if_neg (by omega)]

/-- C9 witness: concrete page addresses for the test date. -/
theorem page_url_pattern_witness :
    dW.yyyymmdd.length = 8 ∧
    build_page_url dW 1 = "https://www.release.tdnet.info/inbs/I_list_001_20251021.html" ∧
    build_page_url dW 13 = "https://www.release.tdnet.info/inbs/I_list_013_20251021.html" :=
  ⟨(page_url_pattern dW 1 (by decide) (by decide) (by decide) (by decide)).1,
   ((page_url_pattern dW 1 (by decide) (by decide) (by decide) (by decide)).2.1 rfl).trans
     (by rfl),
   ((page_url_pattern dW 13 (by decide) (by decide) (by decide) (by decide)).2.2
     (by omega)).trans (by rfl)⟩

/-- The duplicated-record fixture result (`rW` twice, its URL once). -/
def resW : TdnetScrapingResult :=
  ⟨dW, 2, [rW, rW], ["https://example.com/test123.pdf"]⟩

/-- C10: `mkResult?` accepts a duplicated record — the same record twice,
its URL listed once, `total_disclosures = 2` — and on that result
`unique_disclosure_count` is 1 (strictly below `total_disclosures`) and
`has_duplicate_ids()` is true: record deduplication is not enforced. -/
theorem result_allows_duplicate_records :
    mkResult? dW 2 [rW, rW] ["https://example.com/test123.pdf"] = some resW ∧
    resW.unique_disclosure_count = 1 ∧
    resW.total_disclosures = 2 ∧
    (resW.unique_disclosure_count : Int) < resW.total_disclosures ∧
    resW.has_duplicate_ids = true := by
  have hdedup : ([rW.id, rW.id] : List String).dedup = [rW.id] := by simp
  refine ⟨by rfl, ?_, rfl, ?_, ?_⟩
  · simp [TdnetScrapingResult.unique_disclosure_count, resW, hdedup]
  · simp [TdnetScrapingResult.unique_disclosure_count, resW, hdedup]
  · simp [TdnetScrapingResult.has_duplicate_ids, TdnetScrapingResult.get_unique_disclosure_ids,
      resW, hdedup]

/-! ## Claims about page extraction -/

theorem mkDisclosure?_time_empty (code nm ti url pl hist : String) (xa : Bool)
    (xu : Option String) (d : PyDate) :
    mkDisclosure? "" code nm ti url xa xu pl hist d = none := rfl

theorem mkDisclosure?_code_empty (t nm ti url pl hist : String) (xa : Bool)
    (xu : Option String) (d : PyDate) :
    mkDisclosure? t "" nm ti url xa xu pl hist d = none := by
  have hc : isCompanyCodeString (strStrip "") = false := rfl
  simp only [mkDisclosure?]
  by_cases h : isTimeString (strStrip t) <;> simp [h, hc]

theorem mkFromRowData_time_empty (rd : RowData) (d : PyDate) (h : rd.time.getD "" = "") :
    mkDisclosureFromRowData rd d = none := by
  unfold mkDisclosureFromRowData
  split
  · rfl
  · split
    · rename_i n ti p pl heq1 heq2 heq3 heq4
      split
      · rfl
      · rw [h]
        exact mkDisclosure?_time_empty _ _ _ _ _ _ _ _ _
    · rfl

theorem mkFromRowData_code_empty (rd : RowData) (d : PyDate) (h : rd.code.getD "" = "") :
    mkDisclosureFromRowData rd d = none := by
  unfold mkDisclosureFromRowData
  split
  · rfl
  · split
    · rename_i n ti p pl heq1 heq2 heq3 heq4
      split
      · rfl
      · rw [h]
        exact mkDisclosure?_code_empty _ _ _ _ _ _ _ _ _
    · rfl

/-- C4: with the designated table present, record extraction is exactly a
document-order `filterMap` over the rows, and a row yields a record iff it
has at least 6 cells, tag processing produced a non-empty `time`, a
non-empty `code` and a `pdf_url`, and the row data passes record
construction; failing rows are skipped without affecting the others. -/
theorem extraction_rowwise (page : Page) (rows : List Row) (d : PyDate)
    (h : page.table = some rows) :
    extract_structured_data_from_page page d = rows.filterMap (fun row => processRow row d) ∧
    ∀ row : Row,
      (processRow row d).isSome ↔
        (6 ≤ row.cells.length ∧
         (∃ s, (rowTagData row).time = some s ∧ s ≠ "") ∧
         (∃ s, (rowTagData row).code = some s ∧ s ≠ "") ∧
         (rowTagData row).pdf_url.isSome ∧
         (mkDisclosureFromRowData (rowTagData row) d).isSome) := by
  constructor
  · unfold extract_structured_data_from_page
    rw [h]
    have hg := foldl_append_eq_filterMap (fun row => processRow row d) rows []
    simp only [List.nil_append] at hg
    exact hg
  · intro row
    simp only [processRow]
    constructor
    · intro hs
      split at hs
      · simp at hs
      · rename_i hlen
        split at hs
        · rename_i hguard
          simp only [Bool.and_eq_true, Option.isSome_iff_exists] at hguard
          obtain ⟨⟨⟨s, hts⟩, ⟨c, hcs⟩⟩, ⟨p, hps⟩⟩ := hguard
          refine ⟨by omega, ⟨s, hts, ?_⟩, ⟨c, hcs, ?_⟩, by simp [hps], hs⟩
          · rintro rfl
            rw [mkFromRowData_time_empty _ _ (by simp [hts])] at hs
            simp at hs
          · rintro rfl
            rw [mkFromRowData_code_empty _ _ (by simp [hcs])] at hs
            simp at hs
        · simp at hs
    · rintro ⟨hlen, ⟨s, hts, _⟩, ⟨c, hcs, _⟩, hp, hmk⟩
      rw [if_neg (by omega), if_pos (by simp [hts, hcs, hp])]
      exact hmk

/-! Concrete row and page fixtures, shaped like the TDnet listing layout. -/

def cTime : Cell := ⟨["kjTime"], [], "09:00"⟩
def cCode : Cell := ⟨["kjCode"], [], "62000"⟩
def cCompany : Cell := ⟨["kjCompany"], [], "Acme KK"⟩
def cTitle : Cell :=
  ⟨["kjTitle"], [⟨"/inbs/140120251021000001.pdf", "Dividend Notice"⟩], "Dividend Notice"⟩
def cXbrl : Cell := ⟨["kjXbrl"], [⟨"/inbs/081220251021000001.zip", "XBRL"⟩], "XBRL"⟩
def cPlace : Cell := ⟨["kjPlace"], [], "東"⟩

/-- A well-formed listing row. -/
def rowGood : Row := ⟨[cTime, cCode, cCompany, cTitle, cXbrl, cPlace]⟩

/-- A malformed row: its title cell has no hyperlink, so no PDF URL resolves. -/
def cTitleNoPdf : Cell := ⟨["kjTitle"], [], "Plain Title"⟩
def rowBad : Row := ⟨[cTime, cCode, cCompany, cTitleNoPdf, cXbrl, cPlace]⟩

def pageW : Page := ⟨some [rowGood, rowBad], none, false⟩

/-- The record `rowGood` extracts to. -/
def recGood : TdnetDisclosure :=
  ⟨"09:00", "62000", "Acme KK", "Dividend Notice",
   "https://www.release.tdnet.info/inbs/140120251021000001.pdf", true,
   some "https://www.release.tdnet.info/inbs/081220251021000001.zip", "東", "", dW⟩

/-- C4 witness: a page with one well-formed and one malformed row extracts
to exactly the well-formed row's record, in order. -/
theorem extraction_rowwise_witness :
    pageW.table = some [rowGood, rowBad] ∧
    extract_structured_data_from_page pageW dW =
      [rowGood, rowBad].filterMap (fun row => processRow row dW) ∧
    extract_structured_data_from_page pageW dW = [recGood] :=
  ⟨rfl, (extraction_rowwise pageW [rowGood, rowBad] dW rfl).1, by rfl⟩

/-- A `.zip` suffix excludes a `.pdf` suffix. -/
theorem strEndsWith_zip_not_pdf (s : String) (hz : strEndsWith s ".zip" = true) :
    strEndsWith s ".pdf" = false := by
  by_contra hc
  simp only [Bool.not_eq_false] at hc
  unfold strEndsWith at hz hc
  rw [List.isSuffixOf_iff_suffix] at hz hc
  rcases List.suffix_or_suffix_of_suffix hz hc with h | h
  · exact absurd (h.eq_of_length rfl) (by decide)
  · exact absurd (h.eq_of_length rfl) (by decide)

/-- Once `pdf_url` is set, the title-cell link loop never changes `pdf_url`
or `title` again. -/
theorem foldl_titleLinkStep_of_pdf_set (links : List ATag) (rd : RowData)
    (h : rd.pdf_url.isSome = true) :
    (links.foldl titleLinkStep rd).pdf_url = rd.pdf_url ∧
    (links.foldl titleLinkStep rd).title = rd.title := by
  induction links generalizing rd with
  | nil => exact ⟨rfl, rfl⟩
  | cons l ls ih =>
    have hstep : (titleLinkStep rd l).pdf_url = rd.pdf_url ∧
        (titleLinkStep rd l).title = rd.title := by
      unfold titleLinkStep
      split_ifs with h1 h2
      · rw [Bool.and_eq_true] at h1
        rw [Option.isNone_iff_eq_none] at h1
        rw [h1.2] at h
        simp at h
      · exact ⟨rfl, rfl⟩
      · exact ⟨rfl, rfl⟩
    have hs : (titleLinkStep rd l).pdf_url.isSome = true := by rw [hstep.1]; exact h
    have hih := ih (titleLinkStep rd l) hs
    simp only [List.foldl_cons]
    exact ⟨hih.1.trans hstep.1, hih.2.trans hstep.2⟩

/-- With `pdf_url` unset, the link loop records the first `.pdf` link's
target and text (and only that one). -/
theorem foldl_titleLinkStep_of_pdf_none (links : List ATag) (rd : RowData)
    (h : rd.pdf_url = none) :
    ((links.foldl titleLinkStep rd).pdf_url =
      (links.find? (fun l => strEndsWith l.href ".pdf")).map
        (fun l => urljoin BASE_URL l.href)) ∧
    ((links.foldl titleLinkStep rd).title =
      match links.find? (fun l => strEndsWith l.href ".pdf") with
      | some l => some l.text
      | none => rd.title) := by
  induction links generalizing rd with
  | nil => simp [h]
  | cons l ls ih =>
    simp only [List.foldl_cons]
    by_cases hp : strEndsWith l.href ".pdf"
    · have hstep : titleLinkStep rd l =
          { rd with title := some l.text, pdf_url := some (urljoin BASE_URL l.href) } := by
        unfold titleLinkStep
        rw [if_pos (by rw [hp, h]; rfl)]
      have hfind : List.find? (fun a => strEndsWith a.href ".pdf") (l :: ls) = some l := by
        simp [List.find?_cons, hp]
      rw [hstep, hfind]
      have h2 := foldl_titleLinkStep_of_pdf_set ls
        { rd with title := some l.text, pdf_url := some (urljoin BASE_URL l.href) } rfl
      exact ⟨h2.1, h2.2⟩
    · have hpf : strEndsWith l.href ".pdf" = false := by simpa using hp
      have hstep : (titleLinkStep rd l).pdf_url = none ∧ (titleLinkStep rd l).title = rd.title := by
        unfold titleLinkStep
        split_ifs with h1 h2
        · rw [Bool.and_eq_true] at h1
          exact absurd h1.1 (by simp [hpf])
        · exact ⟨h, rfl⟩
        · exact ⟨h, rfl⟩
      have hfind : List.find? (fun a => strEndsWith a.href ".pdf") (l :: ls) =
          List.find? (fun a => strEndsWith a.href ".pdf") ls := by
        simp [List.find?_cons, hpf]
      rw [hfind]
      have hih := ih (titleLinkStep rd l) hstep.1
      refine ⟨hih.1, ?_⟩
      rw [hih.2]
      cases hf : ls.find? (fun l => strEndsWith l.href ".pdf") <;> simp [hstep.2]

/-- The link loop's effect on the XBRL fields: availability becomes true
exactly when some `.zip` link occurs, and `xbrl_url` tracks the last `.zip`
link. -/
theorem foldl_titleLinkStep_zip (links : List ATag) (rd : RowData) :
    ((links.foldl titleLinkStep rd).xbrl_available =
      if links.any (fun l => strEndsWith l.href ".zip") then some (Sum.inl true)
      else rd.xbrl_available) ∧
    ((links.foldl titleLinkStep rd).xbrl_url =
      match (links.filter (fun l => strEndsWith l.href ".zip")).getLast? with
      | some l => some (urljoin BASE_URL l.href)
      | none => rd.xbrl_url) := by
  induction links generalizing rd with
  | nil => simp
  | cons l ls ih =>
    simp only [List.foldl_cons]
    by_cases hz : strEndsWith l.href ".zip"
    · have hpdf := strEndsWith_zip_not_pdf l.href hz
      have hstep : titleLinkStep rd l =
          { rd with xbrl_url := some (urljoin BASE_URL l.href),
                    xbrl_available := some (Sum.inl true) } := by
        unfold titleLinkStep
        rw [if_neg (by simp [hpdf]), if_pos hz]
      rw [hstep]
      have hih := ih { rd with xbrl_url := some (urljoin BASE_URL l.href),
                               xbrl_available := some (Sum.inl true) }
      constructor
      · rw [hih.1]
        by_cases ha : ls.any (fun l => strEndsWith l.href ".zip") <;> simp [ha, hz]
      · rw [hih.2, List.filter_cons_of_pos (by simpa using hz)]
        cases hfl : ls.filter (fun l => strEndsWith l.href ".zip") with
        | nil => simp
        | cons x xs =>
          cases hgl : (x :: xs).getLast? with
          | some y => simp [hgl]
          | none => simp at hgl
    · have hstep : (titleLinkStep rd l).xbrl_available = rd.xbrl_available ∧
          (titleLinkStep rd l).xbrl_url = rd.xbrl_url := by
        unfold titleLinkStep
        split_ifs with h1
        · exact ⟨rfl, rfl⟩
        · exact ⟨rfl, rfl⟩
      have hih := ih (titleLinkStep rd l)
      constructor
      · rw [hih.1]
        by_cases ha : ls.any (fun l => strEndsWith l.href ".zip") <;>
          simp [ha, hz, hstep.1]
      · rw [hih.2, List.filter_cons_of_neg (by simpa using hz)]
        cases hf : (ls.filter (fun l => strEndsWith l.href ".zip")).getLast? <;>
          simp [hf, hstep.2]

/-- C5: in a title-tagged cell (with no PDF recorded yet for the row), the
first `.pdf` hyperlink in document order supplies both title and resolved
`pdf_url` and later `.pdf` links are ignored; availability is set iff some
`.zip` link occurs (the last `.zip` link supplying `xbrl_url`); with no
`.pdf` link the title falls back to the cell text and no `pdf_url` is
recorded. -/
theorem title_cell_spec (rd : RowData) (cell : Cell)
    (hpdf : rd.pdf_url = none) (htitle : rd.title = none) :
    (match cell.links.find? (fun l => strEndsWith l.href ".pdf") with
     | some l =>
       (processTitleCell rd cell).pdf_url = some (urljoin BASE_URL l.href) ∧
       (processTitleCell rd cell).title = some l.text
     | none =>
       (processTitleCell rd cell).pdf_url = none ∧
       (processTitleCell rd cell).title = some cell.text) ∧
    (processTitleCell rd cell).xbrl_available =
      some (Sum.inl (cell.links.any (fun l => strEndsWith l.href ".zip"))) ∧
    ((processTitleCell rd cell).xbrl_url =
      match (cell.links.filter (fun l => strEndsWith l.href ".zip")).getLast? with
      | some l => some (urljoin BASE_URL l.href)
      | none => rd.xbrl_url) := by
  simp only [processTitleCell]
  have hpdf0 : ({ rd with xbrl_available := some (Sum.inl false) } : RowData).pdf_url = none :=
    hpdf
  have hL1 := foldl_titleLinkStep_of_pdf_none cell.links
    { rd with xbrl_available := some (Sum.inl false) } hpdf0
  have hL3 := foldl_titleLinkStep_zip cell.links
    { rd with xbrl_available := some (Sum.inl false) }
  set fold := cell.links.foldl titleLinkStep
    { rd with xbrl_available := some (Sum.inl false) } with hfold
  have havail : (if fold.title.isNone then { fold with title := some cell.text }
      else fold).xbrl_available = fold.xbrl_available := by
    split <;> rfl
  have hxurl : (if fold.title.isNone then { fold with title := some cell.text }
      else fold).xbrl_url = fold.xbrl_url := by
    split <;> rfl
  have hpu : (if fold.title.isNone then { fold with title := some cell.text }
      else fold).pdf_url = fold.pdf_url := by
    split <;> rfl
  refine ⟨?_, ?_, ?_⟩
  · cases hf : cell.links.find? (fun l => strEndsWith l.href ".pdf") with
    | some l =>
      rw [hf] at hL1
      have ht : fold.title = some l.text := hL1.2
      have htn : fold.title.isNone = false := by rw [ht]; rfl
      rw [if_neg (by simp [htn])]
      exact ⟨hL1.1, ht⟩
    | none =>
      rw [hf] at hL1
      have ht : fold.title = none := by rw [hL1.2]; exact htitle
      have htn : fold.title.isNone = true := by rw [ht]; rfl
      rw [if_pos (by simp [htn])]
      exact ⟨hL1.1, rfl⟩
  · rw [havail, hL3.1]
    by_cases ha : cell.links.any (fun l => strEndsWith l.href ".zip") <;> simp [ha]
  · rw [hxurl, hL3.2]

/-- The C5 fixture: a title cell holding, in order, a `.zip` link, two
`.pdf` links and a second `.zip` link. -/
def cTitleMulti : Cell :=
  ⟨["kjTitle"],
   [⟨"/a1.zip", "z1"⟩, ⟨"/a2.pdf", "first pdf"⟩, ⟨"/a3.pdf", "second pdf"⟩,
    ⟨"/a4.zip", "z2"⟩], "fallback text"⟩

/-- C5 witness: on the multi-link cell the first `.pdf` link wins, the
second is ignored, and the `.zip` links set availability and `xbrl_url`. -/
theorem title_cell_spec_witness :
    (processTitleCell {} cTitleMulti).pdf_url = some "https://www.release.tdnet.info/a2.pdf" ∧
    (processTitleCell {} cTitleMulti).title = some "first pdf" ∧
    (processTitleCell {} cTitleMulti).xbrl_available = some (Sum.inl true) ∧
    (processTitleCell {} cTitleMulti).xbrl_url =
      some "https://www.release.tdnet.info/a4.zip" := by
  have h := title_cell_spec {} cTitleMulti rfl rfl
  exact ⟨h.1.1, h.1.2, h.2.1, h.2.2⟩

/-- Whether processing a cell can write the `xbrl_available` key: the
`kjTitle` and `kjXbrl` branches do, and so does a generic tag whose
lower-cased remainder is `xbrl_available`. -/
def touchesXbrlAvailability (c : Cell) : Bool :=
  match c.classes.find? (fun s => strStartsWith s "kj") with
  | some cn => cn == "kjTitle" || cn == "kjXbrl" || strLower ⟨cn.data.drop 2⟩ == "xbrl_available"
  | none => false

theorem processCell_preserves_avail (rd : RowData) (c : Cell)
    (h : touchesXbrlAvailability c = false) :
    (processCell rd c).xbrl_available = rd.xbrl_available := by
  unfold processCell
  unfold touchesXbrlAvailability at h
  cases hfind : c.classes.find? (fun s => strStartsWith s "kj") with
  | none => rfl
  | some cn =>
    rw [hfind] at h
    simp only [Bool.or_eq_false_iff] at h
    obtain ⟨⟨h1, h2⟩, h3⟩ := h
    dsimp only
    rw [if_neg (by simp [h1]), if_neg (by simp [h2])]
    split_ifs with h4 h5
    · rfl
    · rfl
    · unfold applyGeneric
      split_ifs <;> first | rfl | simp_all

theorem foldl_processCell_preserves_avail (cells : List Cell) (rd : RowData)
    (h : ∀ c ∈ cells, touchesXbrlAvailability c = false) :
    (cells.foldl processCell rd).xbrl_available = rd.xbrl_available := by
  induction cells generalizing rd with
  | nil => rfl
  | cons c cs ih =>
    simp only [List.foldl_cons]
    rw [ih (processCell rd c) (fun c2 hc2 => h c2 (List.mem_cons_of_mem _ hc2)),
        processCell_preserves_avail rd c (h c (List.mem_cons_self _ _))]

theorem processCell_xbrl (rd : RowData) (c : Cell)
    (hx : c.classes.find? (fun s => strStartsWith s "kj") = some "kjXbrl") :
    (processCell rd c).xbrl_available =
      some (Sum.inl (match c.links.head? with
        | some l => strEndsWith l.href ".zip"
        | none => false)) := by
  unfold processCell
  rw [hx]
  dsimp only
  rw [if_neg (by decide), if_pos (by decide)]
  unfold processXbrlCell
  cases hh : c.links.head? with
  | none => rfl
  | some l =>
    dsimp only
    by_cases hz : strEndsWith l.href ".zip"
    · rw [if_pos hz]
      simp [hz]
    · rw [if_neg hz]
      simp only [Bool.not_eq_true] at hz
      simp [hz]

/-- The fixture for C6: a dedicated XBRL cell whose first hyperlink is a
`.pdf` attachment and whose second hyperlink is the `.zip` archive. -/
def cXbrlMixed : Cell :=
  ⟨["kjXbrl"],
   [⟨"/inbs/extra.pdf", "attachment"⟩, ⟨"/inbs/081220251021000002.zip", "XBRL"⟩], "XBRL"⟩

def rowC6 : Row := ⟨[cTime, cCode, cCompany, cTitle, cXbrlMixed, cPlace]⟩

def recC6 : TdnetDisclosure := { recGood with xbrl_available := false, xbrl_url := none }

/-- C6 counterexample: in a row whose dedicated XBRL-tagged cell does
contain an archive (`.zip`) hyperlink — in second position, after a `.pdf`
attachment link — the extracted record has `xbrl_available = false`,
because the code consults only that cell's first hyperlink.  So the final
`xbrl_available` does not reflect whether the XBRL-tagged cell contains an
archive hyperlink, as the claim states. -/
theorem xbrl_cell_verdict_cex :
    ("kjXbrl" ∈ cXbrlMixed.classes) ∧
    cXbrlMixed.links.any (fun l => strEndsWith l.href ".zip") = true ∧
    processRow rowC6 dW = some recC6 ∧
    recC6.xbrl_available = false := by
  exact ⟨by simp [cXbrlMixed], by rfl, by rfl, rfl⟩

/-- C6 amended: when the XBRL-tagged cell is the last cell of the row that
can affect `xbrl_available` (in particular whenever it appears after the
title cell), it is authoritative for the row, and its verdict is whether
its FIRST hyperlink ends in the archive extension. -/
theorem xbrl_cell_last_wins (pre post : List Cell) (x : Cell) (rd0 : RowData)
    (hx : x.classes.find? (fun s => strStartsWith s "kj") = some "kjXbrl")
    (hpost : ∀ c ∈ post, touchesXbrlAvailability c = false) :
    ((pre ++ x :: post).foldl processCell rd0).xbrl_available =
      some (Sum.inl (match x.links.head? with
        | some l => strEndsWith l.href ".zip"
        | none => false)) := by
  rw [List.foldl_append, List.foldl_cons,
      foldl_processCell_preserves_avail post _ hpost]
  exact processCell_xbrl _ x hx

/-- C6 amended-claim witness: on the mixed-link XBRL cell placed after the
title cell, the row's final availability is `false` — the first hyperlink's
verdict. -/
theorem xbrl_cell_last_wins_witness :
    cXbrlMixed.classes.find? (fun s => strStartsWith s "kj") = some "kjXbrl" ∧
    (∀ c ∈ [cPlace], touchesXbrlAvailability c = false) ∧
    (([cTime, cCode, cCompany, cTitle] ++ cXbrlMixed :: [cPlace]).foldl processCell
        ({} : RowData)).xbrl_available = some (Sum.inl false) := by
  refine ⟨rfl, ?_, ?_⟩
  · intro c hc
    simp only [List.mem_singleton] at hc
    subst hc
    rfl
  · exact xbrl_cell_last_wins [cTime, cCode, cCompany, cTitle] [cPlace] cXbrlMixed {} rfl
      (by intro c hc; simp only [List.mem_singleton] at hc; subst hc; rfl)

/-! ## C7: agreement of the two URL-extraction passes -/

/-- Whether processing a cell can write the `pdf_url` key: the `kjTitle`
branch does, and so does a generic tag whose lower-cased remainder is
`pdf_url`. -/
def touchesPdfUrl (c : Cell) : Bool :=
  match c.classes.find? (fun s => strStartsWith s "kj") with
  | some cn => cn == "kjTitle" || strLower ⟨cn.data.drop 2⟩ == "pdf_url"
  | none => false

theorem processCell_preserves_pdf (rd : RowData) (c : Cell)
    (h : touchesPdfUrl c = false) :
    (processCell rd c).pdf_url = rd.pdf_url := by
  unfold processCell
  unfold touchesPdfUrl at h
  cases hfind : c.classes.find? (fun s => strStartsWith s "kj") with
  | none => rfl
  | some cn =>
    rw [hfind] at h
    simp only [Bool.or_eq_false_iff] at h
    obtain ⟨h1, h2⟩ := h
    dsimp only
    rw [if_neg (by simp [h1])]
    split_ifs with h3 h4 h5
    · unfold processXbrlCell
      cases c.links.head? with
      | none => rfl
      | some l =>
        dsimp only
        split_ifs <;> rfl
    · rfl
    · rfl
    · unfold applyGeneric
      split_ifs <;> first | rfl | simp_all

theorem foldl_processCell_preserves_pdf (cells : List Cell) (rd : RowData)
    (h : ∀ c ∈ cells, touchesPdfUrl c = false) :
    (cells.foldl processCell rd).pdf_url = rd.pdf_url := by
  induction cells generalizing rd with
  | nil => rfl
  | cons c cs ih =>
    simp only [List.foldl_cons]
    rw [ih (processCell rd c) (fun c2 hc2 => h c2 (List.mem_cons_of_mem _ hc2)),
        processCell_preserves_pdf rd c (h c (List.mem_cons_self _ _))]

theorem processCell_title_pdf (rd : RowData) (c : Cell) (l : ATag) (ls : List ATag)
    (hx : c.classes.find? (fun s => strStartsWith s "kj") = some "kjTitle")
    (hlinks : c.links = l :: ls) (hl : strEndsWith l.href ".pdf" = true)
    (hpdf : rd.pdf_url = none) :
    (processCell rd c).pdf_url = some (urljoin BASE_URL l.href) := by
  unfold processCell
  rw [hx]
  dsimp only
  rw [if_pos (by decide)]
  simp only [processTitleCell]
  have hL1 := foldl_titleLinkStep_of_pdf_none c.links
    { rd with xbrl_available := some (Sum.inl false) } hpdf
  have hfind : c.links.find? (fun a => strEndsWith a.href ".pdf") = some l := by
    rw [hlinks]
    simp [List.find?_cons, hl]
  rw [hfind] at hL1
  have hpu : ∀ f : RowData,
      (if f.title.isNone then { f with title := some c.text } else f).pdf_url = f.pdf_url := by
    intro f
    split <;> rfl
  rw [hpu]
  simpa using hL1.1

theorem mkDisclosure?_pdf (t code nm ti p : String) (xa : Bool) (xu : Option String)
    (pl hist : String) (d : PyDate) (r : TdnetDisclosure)
    (h : mkDisclosure? t code nm ti p xa xu pl hist d = some r) : r.pdf_url = p := by
  simp only [mkDisclosure?] at h
  split_ifs at h
  cases h
  rfl

theorem mkFromRowData_pdf (rd : RowData) (d : PyDate) (r : TdnetDisclosure)
    (h : mkDisclosureFromRowData rd d = some r) : rd.pdf_url = some r.pdf_url := by
  unfold mkDisclosureFromRowData at h
  split at h
  · simp at h
  · split at h
    · rename_i n ti p pl heq1 heq2 heq3 heq4
      split at h
      · simp at h
      · rw [heq3, mkDisclosure?_pdf _ _ _ _ _ _ _ _ _ _ _ h]
    · simp at h

theorem mkFromRowData_isSome_keys (rd : RowData) (d : PyDate)
    (h : (mkDisclosureFromRowData rd d).isSome = true) :
    rd.time.isSome = true ∧ rd.code.isSome = true := by
  constructor
  · cases ht : rd.time with
    | some s => rfl
    | none =>
      rw [mkFromRowData_time_empty rd d (by simp [ht])] at h
      simp at h
  · cases hc : rd.code with
    | some s => rfl
    | none =>
      rw [mkFromRowData_code_empty rd d (by simp [hc])] at h
      simp at h

/-- A row is well formed for the two-pass agreement when it has at least 6
cells, exactly its fourth cell (index 3) is effectively title-tagged (no
other cell can write `pdf_url`), that cell's first hyperlink is a `.pdf`
link, and the row data passes record construction. -/
def wellFormedRow (d : PyDate) (row : Row) : Prop :=
  ∃ c0 c1 c2 ct rest,
    row.cells = c0 :: c1 :: c2 :: ct :: rest ∧
    2 ≤ rest.length ∧
    touchesPdfUrl c0 = false ∧ touchesPdfUrl c1 = false ∧ touchesPdfUrl c2 = false ∧
    (∀ c ∈ rest, touchesPdfUrl c = false) ∧
    ct.classes.find? (fun s => strStartsWith s "kj") = some "kjTitle" ∧
    (∃ l ls, ct.links = l :: ls ∧ strEndsWith l.href ".pdf" = true) ∧
    (mkDisclosureFromRowData (rowTagData row) d).isSome = true

theorem wellFormedRow_agree (d : PyDate) (row : Row) (hw : wellFormedRow d row) :
    ∃ rec, processRow row d = some rec ∧ rowPdfUrl? row = some rec.pdf_url := by
  obtain ⟨c0, c1, c2, ct, rest, hcells, hrest, h0, h1, h2, hrestP, hct,
    ⟨l, ls, hlinks, hl⟩, hmk⟩ := hw
  have hfold : (rowTagData row).pdf_url = some (urljoin BASE_URL l.href) := by
    unfold rowTagData
    rw [hcells]
    simp only [List.foldl_cons]
    have h3none : (processCell (processCell (processCell {} c0) c1) c2).pdf_url = none := by
      rw [processCell_preserves_pdf _ c2 h2, processCell_preserves_pdf _ c1 h1,
          processCell_preserves_pdf _ c0 h0]
    rw [foldl_processCell_preserves_pdf rest _ hrestP]
    exact processCell_title_pdf _ ct l ls hct hlinks hl h3none
  obtain ⟨rec, hrec⟩ := Option.isSome_iff_exists.mp hmk
  have hkeys := mkFromRowData_isSome_keys _ d (by rw [hrec]; rfl)
  have hfoldSome : (rowTagData row).pdf_url.isSome = true := by
    rw [hfold]
    rfl
  have hproc : processRow row d = some rec := by
    unfold processRow
    rw [if_neg (by rw [hcells]; simp only [List.length_cons]; omega)]
    rw [if_pos (by simp [hkeys.1, hkeys.2, hfoldSome])]
    exact hrec
  have hcell3 : row.cells[3]? = some ct := by
    rw [hcells]
    simp
  have hmem : "kjTitle" ∈ ct.classes := List.mem_of_find?_eq_some hct
  have hflat : rowPdfUrl? row = some (urljoin BASE_URL l.href) := by
    unfold rowPdfUrl?
    rw [hcell3]
    dsimp only
    rw [if_pos hmem, hlinks]
    dsimp only [List.head?]
    rw [if_pos hl]
  have hpdfrec := mkFromRowData_pdf _ d rec hrec
  rw [hfold] at hpdfrec
  refine ⟨rec, hproc, ?_⟩
  rw [hflat]
  exact hpdfrec

theorem filterMap_agree (d : PyDate) (rows : List Row)
    (hw : ∀ row ∈ rows, wellFormedRow d row) :
    rows.filterMap rowPdfUrl? =
      (rows.filterMap (fun row => processRow row d)).map (fun r => r.pdf_url) := by
  induction rows with
  | nil => rfl
  | cons r rs ih =>
    obtain ⟨rec, hproc, hurl⟩ := wellFormedRow_agree d r (hw r (by simp))
    simp only [List.filterMap_cons, hproc, hurl, List.map_cons]
    rw [ih (fun row hrow => hw row (by simp [hrow]))]

/-- C7: on a well-formed page — every row well formed in the above sense —
the flat PDF-URL pass and the per-row record pass agree element for
element, in row order. -/
theorem flat_urls_match_records (page : Page) (rows : List Row) (d : PyDate)
    (h : page.table = some rows) (hw : ∀ row ∈ rows, wellFormedRow d row) :
    extract_pdf_urls_from_page page =
      (extract_structured_data_from_page page d).map (fun r => r.pdf_url) := by
  unfold extract_pdf_urls_from_page extract_structured_data_from_page
  rw [h]
  dsimp only
  rw [foldl_append_eq_filterMap rowPdfUrl? rows [],
      foldl_append_eq_filterMap (fun row => processRow row d) rows []]
  simp only [List.nil_append]
  exact filterMap_agree d rows hw

/-- The C7 witness page: a single well-formed row. -/
def pageW7 : Page := ⟨some [rowGood], none, false⟩

/-- C7 witness: on the one-row well-formed page, both passes produce the
same single URL. -/
theorem flat_urls_match_records_witness :
    pageW7.table = some [rowGood] ∧
    (∀ row ∈ [rowGood], wellFormedRow dW row) ∧
    extract_pdf_urls_from_page pageW7 =
      (extract_structured_data_from_page pageW7 dW).map (fun r => r.pdf_url) ∧
    extract_pdf_urls_from_page pageW7 =
      ["https://www.release.tdnet.info/inbs/140120251021000001.pdf"] := by
  have hw : ∀ row ∈ [rowGood], wellFormedRow dW row := by
    intro row hrow
    simp only [List.mem_singleton] at hrow
    subst hrow
    refine ⟨cTime, cCode, cCompany, cTitle, [cXbrl, cPlace], rfl, by decide, rfl, rfl, rfl,
      ?_, rfl, ⟨⟨"/inbs/140120251021000001.pdf", "Dividend Notice"⟩, [], rfl, rfl⟩, by rfl⟩
    intro c hc
    simp at hc
    rcases hc with hc | hc <;> (subst hc; rfl)
  exact ⟨rfl, hw, flat_urls_match_records pageW7 [rowGood] dW rfl hw, by rfl⟩

/-! ## C8: soft stop of the crawl on fetch failure -/

/-- C8: a transport failure or non-404 unsuccessful status (`failure`) on
the very first page ends the crawl with a successfully constructed result —
zero disclosures, empty record list, empty URL list — and, in general, such
a failure on any page ends the loop immediately with the data accumulated
so far. -/
theorem crawl_soft_stop (fetch : String → FetchOutcome) (d : PyDate) (fuel : Nat)
    (h1 : fetch (build_page_url d 1) = FetchOutcome.failure) :
    scrape_tdnet_by_date fetch (fuel + 1) d =
      some { scraping_date := d, total_disclosures := 0, disclosures := [], pdf_urls := [] } ∧
    (∀ (page : Nat) (us : List String) (ds : List TdnetDisclosure) (fl : Nat),
        fetch (build_page_url d page) = FetchOutcome.failure →
        scrapeLoop fetch d (fl + 1) page us ds = (us, ds)) := by
  constructor
  · unfold scrape_tdnet_by_date scrapeLoop
    rw [h1]
    rfl
  · intro page us ds fl hf
    unfold scrapeLoop
    rw [hf]

/-- C8 witness: an always-failing fetch yields the empty result. -/
theorem crawl_soft_stop_witness :
    (fun _ : String => FetchOutcome.failure) (build_page_url dW 1) = FetchOutcome.failure ∧
    scrape_tdnet_by_date (fun _ => FetchOutcome.failure) 5 dW =
      some { scraping_date := dW, total_disclosures := 0, disclosures := [], pdf_urls := [] } ∧
    scrapeLoop (fun _ => FetchOutcome.failure) dW 3 7 ["u"] [rW] = (["u"], [rW]) :=
  ⟨rfl, (crawl_soft_stop (fun _ => FetchOutcome.failure) dW 4 rfl).1,
   (crawl_soft_stop (fun _ => FetchOutcome.failure) dW 4 rfl).2 7 ["u"] [rW] 2 rfl⟩

end Tdnet
